import Mathlib

/-!
Shallow embedding of the FirstMultiAgentFramework core: the message
envelope and router (`src/bus/messages.py`, `src/bus/router.py`), the
agent dispatch loop (`src/agents/base.py`), and the task-to-plan
resolver of the translator agent (`src/agents/translator.py`).

Python strings are modelled as Lean `String`, dictionaries as ordered
association lists (Python dicts preserve insertion order and update
values in place), Python sets of strings as `Finset String` where only
membership and cardinality matter, and wall-clock timestamps as an
explicit `now : Nat` parameter.  Exceptions raised by handlers are
modelled with `Except`.
-/

namespace Maf

/-! ### String helpers mirroring the Python operations used by the code
    (`in` substring test, `str.endswith`, `str.lower`, `str.split`,
    `re.findall r"\w+"`). -/

/-- Bool test that `pre` is a prefix of the second list (Python-style,
    charwise). -/
def isPre : List Char → List Char → Bool
  | [], _ => true
  | _ :: _, [] => false
  | a :: as, b :: bs => a == b && isPre as bs

/-- Bool test that `needle` occurs as a contiguous substring of `hay`
    (Python `needle in hay`; the empty needle always occurs). -/
def hasSub (needle : List Char) : List Char → Bool
  | [] => needle.isEmpty
  | b :: bs => isPre needle (b :: bs) || hasSub needle bs

/-- Python `needle in hay` on strings. -/
def strIn (needle hay : String) : Bool := hasSub needle.data hay.data

/-- Python `s.endswith(suffix)`. -/
def strEndsWith (s suf : String) : Bool := isPre suf.data.reverse s.data.reverse

/-- Python `s.lower()` (ASCII case folding suffices for this code base). -/
def strLower (s : String) : String := ⟨s.data.map Char.toLower⟩

/-- Splits a character list into the maximal runs of characters
    satisfying `keep`; `acc` holds the current run reversed. -/
def tokensAux (keep : Char → Bool) : List Char → List Char → List String
  | [], acc => if acc.isEmpty then [] else [⟨acc.reverse⟩]
  | c :: cs, acc =>
    if keep c then tokensAux keep cs (c :: acc)
    else if acc.isEmpty then tokensAux keep cs []
    else ⟨acc.reverse⟩ :: tokensAux keep cs []

/-- Maximal runs of characters satisfying `keep` in `s`.  With
    `isWordChar` this is Python `re.findall(r"\w+", s)`; with
    `fun c => !c.isWhitespace` it is Python `s.split()`. -/
def tokens (keep : Char → Bool) (s : String) : List String := tokensAux keep s.data []

/-- Python regex `\w` on the ASCII inputs this code handles. -/
def isWordChar (c : Char) : Bool := c.isAlphanum || c == '_'

/-! ### Ordered association lists standing in for Python dicts. -/

/-- Dict lookup: first (and with `insertA` unique) binding of `key`. -/
def lookupA {α : Type} : List (String × α) → String → Option α
  | [], _ => none
  | (k, v) :: rest, key => if k == key then some v else lookupA rest key

/-- Dict update `d[key] = v`: replaces in place or appends, preserving
    insertion order as Python dicts do. -/
def insertA {α : Type} : List (String × α) → String → α → List (String × α)
  | [], key, v => [(key, v)]
  | (k, w) :: rest, key, v =>
    if k == key then (key, v) :: rest else (k, w) :: insertA rest key v

/-- Dict deletion `del d[key]` (no-op when absent, as the router guards
    with a membership test). -/
def removeA {α : Type} : List (String × α) → String → List (String × α)
  | [], _ => []
  | (k, v) :: rest, key => if k == key then rest else (k, v) :: removeA rest key

/-! ### Messages (`src/bus/messages.py`). -/

/-- FIPA-style performative enum. -/
inductive Performative where
  | request
  | inform
  | propose
  | agree
  | failure
deriving DecidableEq, Repr

/-- JSON-like payload values carried in `Message.content`. -/
inductive Val where
  | vstr (s : String)
  | vlist (xs : List Val)
  | vdict (kvs : List (String × Val))

/-- The message envelope. -/
structure Message where
  performative : Performative
  sender : String
  receiver : String
  conversation_id : String
  content_type : String
  content : List (String × Val)
  timestamp : Nat

/-- `Message.create`: the optional timestamp defaults to the current
    instant `now`. -/
def Message.create (performative : Performative) (sender receiver : String)
    (conversation_id content_type : String) (content : List (String × Val))
    (timestamp : Option Nat) (now : Nat) : Message :=
  { performative := performative
    sender := sender
    receiver := receiver
    conversation_id := conversation_id
    content_type := content_type
    content := content
    timestamp := timestamp.getD now }

/-- `Message.reply`: Python computes the sender as
    `sender or self.receiver`, so a `None` override AND an empty-string
    override both fall back to the original receiver (Python truthiness). -/
def Message.reply (m : Message) (performative : Performative)
    (content_type : String) (content : List (String × Val))
    (sender : Option String) (now : Nat) : Message :=
  Message.create performative
    (match sender with
     | none => m.receiver
     | some s => if s == "" then m.receiver else s)
    m.sender m.conversation_id content_type content none now

/-! ### Router (`src/bus/router.py`). -/

/-- The router: a directory from agent name to that agent's inbox,
    modelled by the queue contents (front = oldest). -/
structure Router where
  agents : List (String × List Message)

/-- `Router.register_agent`: inserts or silently replaces. -/
def Router.register_agent (r : Router) (name : String) (inbox : List Message) : Router :=
  ⟨insertA r.agents name inbox⟩

/-- `Router.unregister_agent`: removes the mapping when present. -/
def Router.unregister_agent (r : Router) (name : String) : Router :=
  ⟨removeA r.agents name⟩

/-- `Router.route`: looks up the receiver; absent means `(false, r)`
    with nothing enqueued, present means the message is appended to that
    inbox once and the call returns true.  (`asyncio.Queue.put` on an
    unbounded queue does not fail, so the Python `except` branch is
    dead.) -/
def Router.route (r : Router) (m : Message) : Bool × Router :=
  match lookupA r.agents m.receiver with
  | none => (false, r)
  | some q => (true, ⟨insertA r.agents m.receiver (q ++ [m])⟩)

/-- `Router.is_agent_registered`. -/
def Router.is_agent_registered (r : Router) (name : String) : Bool :=
  (lookupA r.agents name).isSome

/-! ### Agent dispatch loop (`src/agents/base.py`).

A handler either finishes normally, having sent a list of messages, or
raises an exception carrying a string description. -/

/-- The effect of one handler invocation. -/
def Handler : Type := Message → Except String (List Message)

/-- `BaseAgent.handle_message`: dispatch on `content_type`; an unknown
    type is logged and dropped; an exception from the handler is caught
    at this boundary and converted into a single FAILURE reply to the
    sender (sent with `sender=self.name`). -/
def handle_message (name : String) (handlers : List (String × Handler))
    (m : Message) (now : Nat) : List Message :=
  match lookupA handlers m.content_type with
  | none => []
  | some h =>
    match h m with
    | Except.ok out => out
    | Except.error e =>
      [m.reply Performative.failure "error"
        [("error", Val.vstr e), ("original_content_type", Val.vstr m.content_type)]
        (some name) now]

/-- `BaseAgent.run`: drains the inbox, dispatching each message in turn;
    `handle_message` never lets an exception escape, so the loop always
    reaches the remaining messages. -/
def run_loop (name : String) (handlers : List (String × Handler))
    (inbox : List Message) (now : Nat) : List Message :=
  match inbox with
  | [] => []
  | m :: rest => handle_message name handlers m now ++ run_loop name handlers rest now

/-! ### Data model of the resolver (`src/agents/models.py`,
    `src/db/models.py`). -/

/-- `Task.scope` is `Optional[Literal["building", "district"]]`; the
    pydantic validator rules out any other string, so a present scope is
    always truthy in Python. -/
inductive Scope where
  | building
  | district
deriving DecidableEq, Repr

/-- The string a scope renders to. -/
def Scope.str : Scope → String
  | Scope.building => "building"
  | Scope.district => "district"

/-- Normalized user request. -/
structure Task where
  intent : String
  scope : Option Scope
  inputs : List (String × String)
  constraints : List (String × String)
  raw_text : String
deriving DecidableEq, Repr

/-- Input declaration of a CEA script (name, type, required flag). -/
structure ScriptInput where
  name : String
  type : String
  required : Bool
deriving DecidableEq, Repr

/-- CEA script as the capability provider exposes it. -/
structure Script where
  id : String
  name : String
  inputs : List ScriptInput
  tags : List String
deriving DecidableEq, Repr

/-- A step of a stored workflow. -/
structure WorkflowStep where
  step : Nat
  script_id : String
  action : String
  description : String
deriving DecidableEq, Repr

/-- Stored workflow: ordered steps plus a tag set. -/
structure Workflow where
  id : String
  name : String
  steps : List WorkflowStep
  tags : List String
deriving DecidableEq, Repr

/-- A synthesized plan step. -/
structure PlanStep where
  script_id : String
  args : List (String × String)
deriving DecidableEq, Repr

/-- The resolver's output. -/
structure Plan where
  plan : List PlanStep
  explain : String
  assumptions : List String
  missing : List String
deriving DecidableEq, Repr

/-- Read-only snapshot of the capability provider: the workflow list in
    provider iteration order, and the script catalog. -/
structure Provider where
  workflows : List Workflow
  scripts : List Script
deriving DecidableEq, Repr

/-- `CapabilitiesProvider.get_all_workflows`. -/
def get_all_workflows (p : Provider) : List Workflow := p.workflows

/-- `CapabilitiesProvider.get_script_by_id`. -/
def get_script_by_id (p : Provider) (sid : String) : Option Script :=
  p.scripts.find? (fun s => s.id == sid)

/-! ### Tag extraction and scoring
    (`QueryTranslatorAgent._extract_task_tags`,
    `_calculate_workflow_score`, `_get_candidate_workflows`,
    `_find_best_workflow`). -/

/-- Tag inferred from a task input value by file extension. -/
def extTag (v : String) : Option String :=
  if strEndsWith v ".geojson" then some "geometry"
  else if strEndsWith v ".epw" then some "weather"
  else if strEndsWith v ".csv" then some "data"
  else if strEndsWith v ".xlsx" then some "schedule"
  else none

/-- Input keys recognized as tags. -/
def input_key_tags : List String := ["geometry", "weather", "schedule", "data", "config"]

/-- Constraint keys recognized as tags. -/
def constraint_key_tags : List String := ["algorithm", "timestep", "temperature"]

/-- `_extract_task_tags`: a Python set, modelled as a `Finset` since the
    code only uses membership and intersection cardinality. -/
def extract_task_tags (t : Task) : Finset String :=
  (tokens isWordChar (strLower t.intent)).toFinset
    ∪ (match t.scope with
       | some s => {s.str}
       | none => (∅ : Finset String))
    ∪ ((t.inputs.map Prod.fst).filter (fun k => input_key_tags.contains k)).toFinset
    ∪ ((t.inputs.map Prod.snd).filterMap extTag).toFinset
    ∪ ((t.constraints.map Prod.fst).filter (fun k => constraint_key_tags.contains k)).toFinset

/-- `_calculate_workflow_score` (it returns a Python float, but every
    contribution is a small natural number). -/
def calculate_workflow_score (t : Task) (w : Workflow) : Nat :=
  let task_tags := extract_task_tags t
  let workflow_tags := w.tags.toFinset
  let overlap_score := (task_tags ∩ workflow_tags).card
  let intent_bonus :=
    if strIn t.intent w.name
        || (tokens (fun c => !c.isWhitespace) t.intent).any (fun word => strIn word w.name)
    then 5 else 0
  let scope_bonus :=
    match t.scope with
    | some s => if w.tags.contains s.str then 2 else 0
    | none => 0
  overlap_score + intent_bonus + scope_bonus

/-- `_get_candidate_workflows`: keep the workflows whose tag set meets
    the task's tag set. -/
def get_candidate_workflows (t : Task) (p : Provider) : List Workflow :=
  (get_all_workflows p).filter
    (fun w => (extract_task_tags t ∩ w.tags.toFinset).card != 0)

/-- The selection fold of `_find_best_workflow`, generalized over the
    scoring function: starts from `(none, 0)` and replaces the best only
    on a strictly greater score. -/
def select_best {α : Type} (f : α → Nat) (l : List α) (acc : Option α × Nat) :
    Option α × Nat :=
  l.foldl (fun acc a => if acc.2 < f a then (some a, f a) else acc) acc

/-- `_find_best_workflow`: `None` on an empty candidate list, otherwise
    the selection fold. -/
def find_best_workflow (t : Task) (p : Provider) : Option Workflow :=
  let cands := get_candidate_workflows t p
  if cands.isEmpty then none
  else (select_best (calculate_workflow_score t) cands ((none, 0))).1

/-! ### Plan computation (`_compute_plan`,
    `_map_task_inputs_to_script_args`, `_generate_explanation`,
    `_generate_assumptions`). -/

/-- The `scripts` dict of `_compute_plan`: resolvable referenced
    scripts, keyed by id, in first-reference order; unresolvable ids are
    silently skipped. -/
def build_scripts_dict (p : Provider) (w : Workflow) : List (String × Script) :=
  (w.steps.map (fun st => st.script_id)).foldl
    (fun acc sid =>
      match get_script_by_id p sid with
      | some s => insertA acc sid s
      | none => acc)
    []

/-- The `required_inputs` dict of `_compute_plan`: union over the
    resolved scripts of their required input names (mapped to types). -/
def required_inputs_of (scripts : List (String × Script)) : List (String × String) :=
  (scripts.map Prod.snd).foldl
    (fun acc s =>
      s.inputs.foldl
        (fun acc2 inp => if inp.required then insertA acc2 inp.name inp.type else acc2)
        acc)
    []

/-- Weather requirement test of `_compute_plan`. -/
def weather_required (req_names : List String) : Bool :=
  req_names.contains "weather_file"
    || req_names.any (fun r => strIn "weather" (strLower r))

/-- Weather availability test of `_compute_plan`. -/
def weather_available (t : Task) : Bool :=
  (t.inputs.map Prod.snd).any (fun v => strEndsWith v ".epw")
    || (t.inputs.map Prod.fst).contains "weather"

/-- Geometry requirement test of `_compute_plan`. -/
def geometry_required (req_names : List String) : Bool :=
  req_names.contains "buildings"
    || req_names.any (fun r => strIn "geometry" (strLower r))

/-- Geometry availability test of `_compute_plan`. -/
def geometry_available (t : Task) : Bool :=
  (t.inputs.map Prod.snd).any (fun v => strEndsWith v ".geojson")
    || (t.inputs.map Prod.fst).contains "geometry"

/-- The three fixed heuristic availability checks of `_compute_plan`, in
    source order (weather, geometry, scenario_config), producing the
    `available_inputs` set (modelled in insertion order — each category
    is added at most once) and the `missing_inputs` list. -/
def check_inputs (t : Task) (req_names : List String) : List String × List String :=
  let step1 : List String × List String :=
    if weather_required req_names then
      if weather_available t then (["weather_epw"], [])
      else ([], ["weather_epw"])
    else ([], [])
  let step2 : List String × List String :=
    if geometry_required req_names then
      if geometry_available t then (step1.1 ++ ["geometry"], step1.2)
      else (step1.1, step1.2 ++ ["geometry"])
    else step1
  if req_names.contains "scenario_config" then
    if !step2.1.isEmpty then (step2.1 ++ ["scenario_config"], step2.2)
    else (step2.1, step2.2 ++ ["scenario_config"])
  else step2

/-- `_map_task_inputs_to_script_args`: the fixed first-match lookup
    table over task inputs, then the constraint mappings, then the
    `scenario_config` default. -/
def map_task_inputs_to_script_args (t : Task) (s : Script) : List (String × String) :=
  let args := t.inputs.foldl
    (fun args kv =>
      if kv.1 == "geometry" || strEndsWith kv.2 ".geojson" then insertA args "buildings" kv.2
      else if kv.1 == "weather" || strEndsWith kv.2 ".epw" then insertA args "weather_file" kv.2
      else if kv.1 == "schedule" || strEndsWith kv.2 ".xlsx" then
        insertA args "occupancy_schedules" kv.2
      else if kv.1 == "data" || strEndsWith kv.2 ".csv" then insertA args "energy_demands" kv.2
      else args)
    []
  let args := t.constraints.foldl
    (fun args kv =>
      if kv.1 == "algorithm" then insertA args "algorithm" kv.2
      else if kv.1 == "timestep" then insertA args "timestep" kv.2
      else args)
    args
  if s.inputs.any (fun inp => inp.name == "scenario_config") then
    insertA args "scenario_config" "scenario.yml"
  else args

/-- `_generate_explanation`. -/
def generate_explanation (t : Task) (w : Workflow) (avail missing : List String) : String :=
  let e := "Selected workflow \x27" ++ w.name
    ++ "\x27 because it matches your intent to " ++ t.intent ++ "."
  let e := match t.scope with
    | some s => e ++ " This workflow is suitable for " ++ s.str ++ "-level analysis."
    | none => e
  let e := e ++ " The workflow consists of " ++ toString w.steps.length ++ " steps: "
    ++ String.intercalate ", " (w.steps.map (fun st => st.description)) ++ "."
  let e := if !avail.isEmpty then
      e ++ " Available inputs: " ++ String.intercalate ", " avail ++ "."
    else e
  if !missing.isEmpty then
    e ++ " Missing required inputs: " ++ String.intercalate ", " missing ++ "."
  else e

/-- `_generate_assumptions`. -/
def generate_assumptions (t : Task) (w : Workflow) : List String :=
  let a := ["Using default building schedules if not provided",
            "Standard thermal model parameters unless specified"]
  let a := a ++ (match t.scope with
    | some Scope.district => ["All buildings in district have similar characteristics"]
    | some Scope.building => ["Single building analysis with typical occupancy patterns"]
    | none => [])
  let a := a ++ (if strIn "cooling" t.intent then ["Focusing on cooling loads and systems"] else [])
  a ++ (if w.steps.any (fun st => strIn "optimization" st.action) then
          ["Using default optimization objectives unless specified"]
        else [])

/-- `_compute_plan`. -/
def compute_plan (t : Task) (w : Workflow) (p : Provider) : Plan :=
  let scripts := build_scripts_dict p w
  let required_inputs := required_inputs_of scripts
  let req_names := required_inputs.map Prod.fst
  let checked := check_inputs t req_names
  let plan_steps := w.steps.filterMap
    (fun st => (lookupA scripts st.script_id).map
      (fun s => PlanStep.mk st.script_id (map_task_inputs_to_script_args t s)))
  { plan := plan_steps
    explain := generate_explanation t w checked.1 checked.2
    assumptions := generate_assumptions t w
    missing := checked.2 }

/-- `PlanStep.to_dict` (pydantic `model_dump`), as a payload value. -/
def PlanStep.toVal (st : PlanStep) : Val :=
  Val.vdict [("script_id", Val.vstr st.script_id),
             ("args", Val.vdict (st.args.map (fun kv => (kv.1, Val.vstr kv.2))))]

/-- `Plan.to_dict` (pydantic `model_dump`), as a payload value. -/
def Plan.toVal (pl : Plan) : Val :=
  Val.vdict [("plan", Val.vlist (pl.plan.map PlanStep.toVal)),
             ("explain", Val.vstr pl.explain),
             ("assumptions", Val.vlist (pl.assumptions.map Val.vstr)),
             ("missing", Val.vlist (pl.missing.map Val.vstr))]

/-- The `task` handler of the translator
    (`QueryTranslatorAgent.setup_handlers`, `handle_task`), on a
    successfully parsed `Task`: the reply's performative, content type
    and content. -/
def handle_task (t : Task) (p : Provider) : Performative × String × List (String × Val) :=
  match find_best_workflow t p with
  | none =>
    (Performative.failure, "error",
      [("error", Val.vstr ("No workflow found for intent: " ++ t.intent))])
  | some w =>
    let plan := compute_plan t w p
    if !plan.missing.isEmpty then
      (Performative.failure, "plan",
        [("reason", Val.vstr ("Missing required inputs: "
            ++ String.intercalate ", " plan.missing)),
         ("missing", Val.vlist (plan.missing.map Val.vstr)),
         ("plan", Plan.toVal plan)])
    else
      (Performative.inform, "plan",
        [("plan", Plan.toVal plan),
         ("workflow_id", Val.vstr w.id),
         ("workflow_name", Val.vstr w.name)])

/-- One full resolution (workflow selection followed by plan
    computation), as used under the `task` handler. -/
def resolve_task (t : Task) (p : Provider) : Option Plan :=
  (find_best_workflow t p).map (fun w => compute_plan t w p)

/-- The FAILURE reply the dispatch boundary constructs when a handler
    raises (`BaseAgent.handle_message`, via `BaseAgent.reply` which
    passes `sender=self.name`). -/
def auto_failure_reply (name : String) (m : Message) (e : String) (now : Nat) : Message :=
  m.reply Performative.failure "error"
    [("error", Val.vstr e), ("original_content_type", Val.vstr m.content_type)]
    (some name) now

/-! ### Spec-side reading of the argument lookup table (claim C7). -/

/-- Which argument name, if any, a task input writes under the fixed
    lookup table of `_map_task_inputs_to_script_args` (first matching
    row wins, mirroring the `elif` chain). -/
def input_arg_target (kv : String × String) : Option String :=
  if kv.1 == "geometry" || strEndsWith kv.2 ".geojson" then some "buildings"
  else if kv.1 == "weather" || strEndsWith kv.2 ".epw" then some "weather_file"
  else if kv.1 == "schedule" || strEndsWith kv.2 ".xlsx" then some "occupancy_schedules"
  else if kv.1 == "data" || strEndsWith kv.2 ".csv" then some "energy_demands"
  else none

/-- Which argument name, if any, a task constraint writes. -/
def constraint_arg_target (kv : String × String) : Option String :=
  if kv.1 == "algorithm" then some "algorithm"
  else if kv.1 == "timestep" then some "timestep"
  else none

/-- The value written to argument `k` by the last entry of `l` that the
    table sends to `k` (later writes overwrite earlier ones, as Python
    dict assignment does). -/
def last_match (target : (String × String) → Option String) (k : String) :
    List (String × String) → Option String
  | [] => none
  | kv :: rest =>
    match last_match target k rest with
    | some v => some v
    | none => if target kv == some k then some kv.2 else none

/-! ### Concrete fixtures used by counterexamples and witnesses. -/

/-- A concrete inbound message. -/
def msgA : Message :=
  { performative := Performative.request
    sender := "alice"
    receiver := "bob"
    conversation_id := "c1"
    content_type := "task"
    content := []
    timestamp := 0 }

/-- A router with exactly agent `bob` registered on an empty inbox. -/
def rA : Router := ⟨[("bob", [])]⟩

/-- A handler that always raises. -/
def boomHandler : Handler := fun _ => Except.error "boom"

/-- A handler table with `boomHandler` registered for `task`. -/
def handlersA : List (String × Handler) := [("task", boomHandler)]

/-- A workflow tagged `{cooling, demand, thermal}`. -/
def w1 : Workflow :=
  { id := "w1"
    name := "cooling demand analysis"
    steps := []
    tags := ["cooling", "demand", "thermal"] }

/-- A workflow tagged `{network, pipes}`, sharing no tag with `t1`. -/
def w2 : Workflow :=
  { id := "w2"
    name := "network layout"
    steps := []
    tags := ["network", "pipes"] }

/-- A task with intent `cooling demand` at district scope. -/
def t1 : Task :=
  { intent := "cooling demand"
    scope := some Scope.district
    inputs := []
    constraints := []
    raw_text := "estimate the cooling demand" }

/-- A provider listing `w2` before `w1`, with no scripts. -/
def p12 : Provider := ⟨[w2, w1], []⟩

/-- A script requiring buildings, a weather file and a scenario config. -/
def scrA : Script :=
  { id := "s1"
    name := "demand"
    inputs := [⟨"buildings", "file", true⟩, ⟨"weather_file", "file", true⟩,
               ⟨"scenario_config", "file", true⟩]
    tags := [] }

/-- A workflow whose first step resolves to `scrA` and whose second step
    references an unknown script id. -/
def wfA : Workflow :=
  { id := "wf"
    name := "cooling demand"
    steps := [⟨1, "s1", "simulate", "run demand"⟩, ⟨2, "missing", "opt", "absent"⟩]
    tags := ["cooling"] }

/-- A provider holding `wfA` and only the script `scrA`. -/
def provA : Provider := ⟨[wfA], [scrA]⟩

/-- A task with a geometry input but no weather key and no `.epw`
    value. -/
def tA : Task :=
  { intent := "cooling demand"
    scope := none
    inputs := [("geometry", "zone.geojson")]
    constraints := []
    raw_text := "simulate cooling demand for zone.geojson" }

/-! ### Association-list lemmas shared by the router and dispatch
    theorems. -/

theorem lookupA_insertA_self {α : Type} (l : List (String × α)) (k : String) (v : α) :
    lookupA (insertA l k v) k = some v := by
  induction l with
  | nil => simp [insertA, lookupA]
  | cons hd tl ih =>
    obtain ⟨k', v'⟩ := hd
    by_cases h : k' = k
    · simp [insertA, lookupA, h]
    · simp only [insertA, lookupA]
      rw [if_neg (by simpa using h), lookupA, if_neg (by simpa using h)]
      exact ih

theorem lookupA_insertA_ne {α : Type} (l : List (String × α)) (k k' : String) (v : α)
    (h : k' ≠ k) : lookupA (insertA l k v) k' = lookupA l k' := by
  induction l with
  | nil =>
    simp only [insertA, lookupA]
    rw [if_neg]
    simpa using fun hh : k = k' => h hh.symm
  | cons hd tl ih =>
    obtain ⟨k0, v0⟩ := hd
    simp only [insertA]
    by_cases h0 : k0 = k
    · subst h0
      rw [if_pos (by simp)]
      simp only [lookupA]
      rw [if_neg (by simpa using fun hh : k0 = k' => h hh.symm),
        if_neg (by simpa using fun hh : k0 = k' => h hh.symm)]
    · rw [if_neg (by simpa using h0)]
      simp only [lookupA]
      by_cases h1 : k0 = k'
      · simp [h1]
      · rw [if_neg (by simpa using h1), if_neg (by simpa using h1)]
        exact ih

/-! ### Claim C2: fields of `Message.reply`. -/

/-- Claim C2, as stated, is false: `reply` computes the sender as the
    Python expression `sender or self.receiver`, so the explicit
    override `""` is ignored and the original receiver is used instead.
    Concretely, replying to `msgA` (receiver `"bob"`) with the explicit
    override `""` yields sender `"bob"`, not the override. -/
theorem C2_counterexample :
    ¬ (∀ (m : Message) (p : Performative) (ct : String)
        (c : List (String × Val)) (s : String) (now : Nat),
        (m.reply p ct c (some s) now).sender = s) := by
  intro hclaim
  have h := hclaim msgA Performative.inform "plan" [] "" 1
  have hb : (msgA.reply Performative.inform "plan" [] (some "") 1).sender = "bob" := rfl
  rw [hb] at h
  exact absurd h (by decide)

/-- Claim C2 (amended): for every message `M`, `M.reply(...)` keeps
    `M`'s conversation id, is addressed back to `M`'s sender, and its
    sender is `M`'s receiver unless a non-empty explicit override is
    given (a `None` or empty-string override falls back to `M`'s
    receiver, by Python truthiness); performative, content type, content
    and timestamp come from the reply call.  `M` itself is a pure value
    and is not modified. -/
theorem C2_reply_fields (m : Message) (p : Performative) (ct : String)
    (c : List (String × Val)) (so : Option String) (now : Nat) :
    (m.reply p ct c so now).conversation_id = m.conversation_id ∧
    (m.reply p ct c so now).receiver = m.sender ∧
    (so = none → (m.reply p ct c so now).sender = m.receiver) ∧
    (so = some "" → (m.reply p ct c so now).sender = m.receiver) ∧
    (∀ s, so = some s → s ≠ "" → (m.reply p ct c so now).sender = s) ∧
    (m.reply p ct c so now).performative = p ∧
    (m.reply p ct c so now).content_type = ct ∧
    (m.reply p ct c so now).content = c ∧
    (m.reply p ct c so now).timestamp = now := by
  refine ⟨rfl, rfl, ?_, ?_, ?_, rfl, rfl, rfl, rfl⟩
  · intro h; subst h; rfl
  · intro h; subst h; rfl
  · intro s hs hne
    subst hs
    simp only [Message.reply, Message.create]
    rw [if_neg (by simpa using hne)]

/-- Witness for C2_reply_fields at a concrete reply with a non-empty
    override. -/
theorem C2_reply_fields_witness :
    (msgA.reply Performative.inform "plan" [] (some "carol") 5).sender = "carol" ∧
    (msgA.reply Performative.inform "plan" [] (some "carol") 5).conversation_id = "c1" ∧
    (msgA.reply Performative.inform "plan" [] (some "carol") 5).receiver = "alice" := by
  have h := C2_reply_fields msgA Performative.inform "plan" [] (some "carol") 5
  exact ⟨h.2.2.2.2.1 "carol" rfl (by decide), h.1, h.2.1⟩

/-! ### Claim C3: router delivery. -/

/-- Claim C3: `route(m)` returns false and changes nothing iff
    `m.receiver` is unregistered (the message is dropped, no exception);
    when `m.receiver` is registered with inbox `q`, `route` returns true
    and the new router state has exactly `q ++ [m]` at the receiver —
    the message appended exactly once — with every other inbox
    untouched. -/
theorem C3_route (r : Router) (m : Message) :
    (((r.route m).1 = false ∧ (r.route m).2 = r) ↔
      lookupA r.agents m.receiver = none) ∧
    (∀ q, lookupA r.agents m.receiver = some q →
      (r.route m).1 = true ∧
      lookupA (r.route m).2.agents m.receiver = some (q ++ [m]) ∧
      ∀ a, a ≠ m.receiver →
        lookupA (r.route m).2.agents a = lookupA r.agents a) := by
  constructor
  · constructor
    · intro ⟨hfalse, _⟩
      cases hq : lookupA r.agents m.receiver with
      | none => rfl
      | some q =>
        rw [Router.route] at hfalse
        rw [hq] at hfalse
        simp at hfalse
    · intro hnone
      rw [Router.route, hnone]
      exact ⟨rfl, rfl⟩
  · intro q hq
    rw [Router.route, hq]
    refine ⟨rfl, ?_, ?_⟩
    · exact lookupA_insertA_self r.agents m.receiver (q ++ [m])
    · intro a ha
      exact lookupA_insertA_ne r.agents m.receiver a (q ++ [m]) ha

/-- Witness for C3_route: routing `msgA` on a router where `bob` is
    registered with an empty inbox delivers it, and `msgA` appears on
    that inbox exactly once. -/
theorem C3_route_witness :
    (rA.route msgA).1 = true ∧
    lookupA (rA.route msgA).2.agents "bob" = some [msgA] := by
  have h := (C3_route rA msgA).2 [] rfl
  exact ⟨h.1, h.2.1⟩

/-! ### Claim C4: handler failure containment. -/

/-- Claim C4: when the handler registered for `m.content_type` raises
    `e`, the dispatch boundary produces exactly one outbound message:
    the automatic FAILURE reply to `m.sender`, whose content carries the
    error description and `original_content_type = m.content_type`; the
    dispatch loop then proceeds to the remaining inbox messages
    unperturbed, so the agent keeps running. -/
theorem C4_handler_failure (name : String) (handlers : List (String × Handler))
    (m : Message) (now : Nat) (h : Handler) (e : String) (rest : List Message)
    (hh : lookupA handlers m.content_type = some h)
    (he : h m = Except.error e) :
    handle_message name handlers m now = [auto_failure_reply name m e now] ∧
    (auto_failure_reply name m e now).performative = Performative.failure ∧
    (auto_failure_reply name m e now).receiver = m.sender ∧
    lookupA (auto_failure_reply name m e now).content "error" = some (Val.vstr e) ∧
    lookupA (auto_failure_reply name m e now).content "original_content_type"
      = some (Val.vstr m.content_type) ∧
    run_loop name handlers (m :: rest) now
      = auto_failure_reply name m e now :: run_loop name handlers rest now := by
  have hmsg : handle_message name handlers m now = [auto_failure_reply name m e now] := by
    rw [handle_message, hh]
    simp only [he]
    rfl
  refine ⟨hmsg, rfl, rfl, rfl, rfl, ?_⟩
  rw [run_loop, hmsg]
  rfl

/-- Witness for C4_handler_failure: a handler table whose `task` handler
    always raises `"boom"` yields exactly the automatic FAILURE reply,
    addressed to `msgA`'s sender `alice`. -/
theorem C4_handler_failure_witness :
    handle_message "translator" handlersA msgA 7
      = [auto_failure_reply "translator" msgA "boom" 7] ∧
    (auto_failure_reply "translator" msgA "boom" 7).receiver = "alice" := by
  have h := C4_handler_failure "translator" handlersA msgA 7 boomHandler "boom" [] rfl rfl
  exact ⟨h.1, h.2.2.1⟩

/-! ### The selection fold: structure lemma shared by the claims about
    workflow selection. -/

/-- Characterizes `select_best`: either no element beats the incoming
    score and the accumulator survives, or the result is the first
    element `w` attaining the maximum — everything before `w` scores
    strictly below `w` (a tie never displaces an earlier best) and
    everything after scores at most `w`. -/
theorem select_best_cases {α : Type} (f : α → Nat) :
    ∀ (l : List α) (b : Option α) (s : Nat),
      (select_best f l (b, s) = (b, s) ∧ ∀ a ∈ l, f a ≤ s)
      ∨ (∃ l₁ w l₂, l = l₁ ++ w :: l₂ ∧
          select_best f l (b, s) = (some w, f w) ∧ s < f w ∧
          (∀ a ∈ l₁, f a < f w) ∧ (∀ a ∈ l₂, f a ≤ f w)) := by
  intro l
  induction l with
  | nil =>
    intro b s
    left
    exact ⟨rfl, by simp⟩
  | cons hd tl ih =>
    intro b s
    by_cases hcmp : s < f hd
    · have hstep : select_best f (hd :: tl) (b, s) = select_best f tl (some hd, f hd) := by
        simp [select_best, hcmp]
      rcases ih (some hd) (f hd) with ⟨heq, hall⟩ | ⟨l₁, w, l₂, hsplit, heq, hlt, h₁, h₂⟩
      · right
        exact ⟨[], hd, tl, rfl, by rw [hstep, heq], hcmp, by simp, hall⟩
      · right
        refine ⟨hd :: l₁, w, l₂, by rw [hsplit]; rfl, by rw [hstep, heq],
          lt_trans hcmp hlt, ?_, h₂⟩
        intro a ha
        rcases List.mem_cons.mp ha with h | h
        · subst h; exact hlt
        · exact h₁ a h
    · have hstep : select_best f (hd :: tl) (b, s) = select_best f tl (b, s) := by
        simp [select_best, hcmp]
      rcases ih b s with ⟨heq, hall⟩ | ⟨l₁, w, l₂, hsplit, heq, hlt, h₁, h₂⟩
      · left
        refine ⟨by rw [hstep, heq], ?_⟩
        intro a ha
        rcases List.mem_cons.mp ha with h | h
        · subst h; exact Nat.le_of_not_lt hcmp
        · exact hall a h
      · right
        refine ⟨hd :: l₁, w, l₂, by rw [hsplit]; rfl, by rw [hstep, heq], hlt, ?_, h₂⟩
        intro a ha
        rcases List.mem_cons.mp ha with h | h
        · subst h; exact lt_of_le_of_lt (Nat.le_of_not_lt hcmp) hlt
        · exact h₁ a h

/-- Every candidate workflow has a non-empty tag overlap with the task,
    so its score is at least 1. -/
theorem candidate_score_pos (t : Task) (p : Provider) :
    ∀ w ∈ get_candidate_workflows t p, 1 ≤ calculate_workflow_score t w := by
  intro w hw
  rw [get_candidate_workflows] at hw
  have hpred := List.of_mem_filter hw
  have hcard : (extract_task_tags t ∩ w.tags.toFinset).card ≠ 0 := by
    simpa using hpred
  have h1 : 1 ≤ (extract_task_tags t ∩ w.tags.toFinset).card :=
    Nat.one_le_iff_ne_zero.mpr hcard
  simp only [calculate_workflow_score]
  exact le_trans h1 (le_trans (Nat.le_add_right _ _) (Nat.le_add_right _ _))

/-- The selection returns `None` exactly when the candidate set is
    empty. -/
theorem find_best_eq_none_iff (t : Task) (p : Provider) :
    find_best_workflow t p = none ↔ get_candidate_workflows t p = [] := by
  constructor
  · intro h
    by_contra hne
    have hpos := candidate_score_pos t p
    rcases select_best_cases (calculate_workflow_score t)
        (get_candidate_workflows t p) none 0 with
      ⟨heq, hall⟩ | ⟨l₁, w, l₂, hsplit, heq, _, _, _⟩
    · obtain ⟨c, cs, hcons⟩ : ∃ c cs, get_candidate_workflows t p = c :: cs := by
        cases hc : get_candidate_workflows t p with
        | nil => exact absurd hc hne
        | cons c cs => exact ⟨c, cs, rfl⟩
      have hle := hall c (by rw [hcons]; exact List.mem_cons_self c cs)
      have hge := hpos c (by rw [hcons]; exact List.mem_cons_self c cs)
      omega
    · simp only [find_best_workflow] at h
      rw [if_neg (by simpa using hne), heq] at h
      exact Option.noConfusion h
  · intro h
    simp [find_best_workflow, h]

/-- A non-empty candidate set always yields a selected workflow. -/
theorem find_best_some_of_candidates (t : Task) (p : Provider)
    (hne : get_candidate_workflows t p ≠ []) :
    ∃ w, find_best_workflow t p = some w := by
  cases hfb : find_best_workflow t p with
  | none => exact absurd ((find_best_eq_none_iff t p).mp hfb) hne
  | some w => exact ⟨w, rfl⟩

/-! ### Claim C9: reachability of the no-workflow branch. -/

/-- Claim C9: if some workflow shares at least one tag with the task
    (the candidate set is non-empty), workflow selection returns some
    workflow: every candidate scores at least its tag overlap, which is
    at least 1, strictly above the initial best score of 0.  The
    `No workflow found` branch is therefore reachable only on an empty
    candidate set. -/
theorem C9_selection_total (t : Task) (p : Provider)
    (hne : get_candidate_workflows t p ≠ []) :
    (∀ w ∈ get_candidate_workflows t p, 1 ≤ calculate_workflow_score t w) ∧
    ∃ w, find_best_workflow t p = some w :=
  ⟨candidate_score_pos t p, find_best_some_of_candidates t p hne⟩

/-- Witness for C9_selection_total: the provider `p12` has a candidate
    for task `t1`, so selection returns a workflow. -/
theorem C9_selection_total_witness :
    get_candidate_workflows t1 p12 ≠ [] ∧
    ∃ w, find_best_workflow t1 p12 = some w := by
  have h := C9_selection_total t1 p12 (by decide)
  exact ⟨by decide, h.2⟩

/-! ### Claim C5: scoring formula and selection rule. -/

/-- Claim C5: the score is exactly tag overlap plus an intent bonus of 5
    (workflow name contains the intent as a substring, or contains some
    whitespace-split word of the intent) plus a scope bonus of 2 (scope
    present and a member of the workflow's tags); and the selected
    workflow is the first candidate, in provider iteration order,
    attaining the maximal score — every earlier candidate scores
    strictly less, every later one at most as much. -/
theorem C5_scoring_and_selection :
    (∀ (t : Task) (w : Workflow),
      calculate_workflow_score t w =
        (extract_task_tags t ∩ w.tags.toFinset).card
        + (if strIn t.intent w.name = true
              ∨ ∃ word ∈ tokens (fun c => !c.isWhitespace) t.intent,
                  strIn word w.name = true
           then 5 else 0)
        + (match t.scope with
           | some s => if s.str ∈ w.tags then 2 else 0
           | none => 0)) ∧
    (∀ (t : Task) (p : Provider) (w : Workflow),
      find_best_workflow t p = some w →
      ∃ l₁ l₂, get_candidate_workflows t p = l₁ ++ w :: l₂ ∧
        (∀ w' ∈ l₁, calculate_workflow_score t w' < calculate_workflow_score t w) ∧
        (∀ w' ∈ l₂, calculate_workflow_score t w' ≤ calculate_workflow_score t w)) := by
  constructor
  · intro t w
    simp only [calculate_workflow_score]
    congr 1
    · congr 1
      refine if_congr ?_ rfl rfl
      simp [List.any_eq_true]
    · cases t.scope with
      | none => rfl
      | some s =>
        refine if_congr ?_ rfl rfl
        simp
  · intro t p w hfb
    have hne : get_candidate_workflows t p ≠ [] := by
      intro hc
      rw [(find_best_eq_none_iff t p).mpr hc] at hfb
      exact Option.noConfusion hfb
    rcases select_best_cases (calculate_workflow_score t)
        (get_candidate_workflows t p) none 0 with
      ⟨heq, hall⟩ | ⟨l₁, w', l₂, hsplit, heq, _, h₁, h₂⟩
    · exfalso
      obtain ⟨c, cs, hcons⟩ : ∃ c cs, get_candidate_workflows t p = c :: cs := by
        cases hc : get_candidate_workflows t p with
        | nil => exact absurd hc hne
        | cons c cs => exact ⟨c, cs, rfl⟩
      have hle := hall c (by rw [hcons]; exact List.mem_cons_self c cs)
      have hge := candidate_score_pos t p c (by rw [hcons]; exact List.mem_cons_self c cs)
      omega
    · have hw : w' = w := by
        simp only [find_best_workflow] at hfb
        rw [if_neg (by simpa using hne), heq] at hfb
        exact (Option.some.injEq _ _).mp hfb
      subst hw
      exact ⟨l₁, l₂, hsplit, h₁, h₂⟩

/-- Witness for C5_scoring_and_selection: for task `t1` against provider
    `p12`, workflow `w1` is selected and sits in the candidate split. -/
theorem C5_scoring_and_selection_witness :
    ∃ l₁ l₂, get_candidate_workflows t1 p12 = l₁ ++ w1 :: l₂ ∧
      (∀ w' ∈ l₁, calculate_workflow_score t1 w' < calculate_workflow_score t1 w1) ∧
      (∀ w' ∈ l₂, calculate_workflow_score t1 w' ≤ calculate_workflow_score t1 w1) :=
  C5_scoring_and_selection.2 t1 p12 w1 (by decide)

/-! ### Claim C1: the three reply shapes of the `task` handler. -/

/-- Claim C1: on a parsed task, the translator's reply has exactly one
    of three shapes, and which one is determined by candidate matching
    and the plan's missing list: an empty candidate set (no workflow
    shares a tag with the task's extracted tags) gives a FAILURE/`error`
    with `No workflow found for intent: <intent>`; a selected workflow
    with a non-empty missing list gives a FAILURE/`plan` carrying
    `{reason, missing, plan}` including the incomplete plan; an empty
    missing list gives an INFORM/`plan` carrying
    `{plan, workflow_id, workflow_name}`. -/
theorem C1_task_reply_shapes (t : Task) (p : Provider) :
    (get_candidate_workflows t p = [] ∧
      handle_task t p = (Performative.failure, "error",
        [("error", Val.vstr ("No workflow found for intent: " ++ t.intent))]))
    ∨ (∃ w, find_best_workflow t p = some w ∧
        get_candidate_workflows t p ≠ [] ∧
        (compute_plan t w p).missing ≠ [] ∧
        handle_task t p = (Performative.failure, "plan",
          [("reason", Val.vstr ("Missing required inputs: "
              ++ String.intercalate ", " (compute_plan t w p).missing)),
           ("missing", Val.vlist ((compute_plan t w p).missing.map Val.vstr)),
           ("plan", Plan.toVal (compute_plan t w p))]))
    ∨ (∃ w, find_best_workflow t p = some w ∧
        get_candidate_workflows t p ≠ [] ∧
        (compute_plan t w p).missing = [] ∧
        handle_task t p = (Performative.inform, "plan",
          [("plan", Plan.toVal (compute_plan t w p)),
           ("workflow_id", Val.vstr w.id),
           ("workflow_name", Val.vstr w.name)])) := by
  cases hfb : find_best_workflow t p with
  | none =>
    left
    refine ⟨(find_best_eq_none_iff t p).mp hfb, ?_⟩
    rw [handle_task, hfb]
  | some w =>
    have hne : get_candidate_workflows t p ≠ [] := by
      intro hc
      rw [(find_best_eq_none_iff t p).mpr hc] at hfb
      exact Option.noConfusion hfb
    by_cases hm : (compute_plan t w p).missing = []
    · right; right
      refine ⟨w, rfl, hne, hm, ?_⟩
      rw [handle_task, hfb]
      simp only [hm]
      rfl
    · right; left
      refine ⟨w, rfl, hne, hm, ?_⟩
      rw [handle_task, hfb]
      have hmm : ((compute_plan t w p).missing.isEmpty = false) := by
        cases hmx : (compute_plan t w p).missing with
        | nil => exact absurd hmx hm
        | cons a l => rfl
      simp only [hmm]
      rfl

/-! ### Claim C8: determinism of resolution. -/

/-- Claim C8: resolving the same task against the same workflow/script
    snapshot twice yields plans with identical content — same steps with
    the same args, same explain string, same assumptions, same missing
    list.  In the embedding resolution is a pure function of the task
    and the provider snapshot (Python's only order-sensitive spot, the
    set iteration inside the explanation, is stable within a process),
    so equal snapshots give equal plans componentwise. -/
theorem C8_deterministic (t : Task) (p₁ p₂ : Provider) (h : p₁ = p₂)
    (pl₁ pl₂ : Plan) (h₁ : resolve_task t p₁ = some pl₁)
    (h₂ : resolve_task t p₂ = some pl₂) :
    pl₁.plan = pl₂.plan ∧ pl₁.explain = pl₂.explain ∧
    pl₁.assumptions = pl₂.assumptions ∧ pl₁.missing = pl₂.missing := by
  subst h
  rw [h₁] at h₂
  injection h₂ with h₂
  subst h₂
  exact ⟨rfl, rfl, rfl, rfl⟩

set_option maxRecDepth 8192 in
/-- Witness for C8_deterministic: two resolutions of `tA` against
    `provA` yield the very same plan content. -/
theorem C8_deterministic_witness :
    (compute_plan tA wfA provA).plan = (compute_plan tA wfA provA).plan ∧
    (compute_plan tA wfA provA).explain = (compute_plan tA wfA provA).explain ∧
    (compute_plan tA wfA provA).assumptions = (compute_plan tA wfA provA).assumptions ∧
    (compute_plan tA wfA provA).missing = (compute_plan tA wfA provA).missing :=
  C8_deterministic tA provA provA rfl
    (compute_plan tA wfA provA) (compute_plan tA wfA provA) (by decide) (by decide)

/-! ### Claim C10: silently skipped unresolvable workflow steps. -/

/-- Lookup in the `scripts` dict built by `_compute_plan`, over the
    folded id list. -/
theorem build_scripts_fold_lookup (p : Provider) :
    ∀ (sids : List String) (acc : List (String × Script)) (sid : String),
      lookupA (sids.foldl
        (fun acc sid =>
          match get_script_by_id p sid with
          | some s => insertA acc sid s
          | none => acc) acc) sid =
      match get_script_by_id p sid with
      | none => lookupA acc sid
      | some sc => if sid ∈ sids then some sc else lookupA acc sid := by
  intro sids
  induction sids with
  | nil =>
    intro acc sid
    cases hg : get_script_by_id p sid <;> simp
  | cons s' sids ih =>
    intro acc sid
    rw [List.foldl_cons, ih]
    by_cases hss : sid = s'
    · subst hss
      cases hg : get_script_by_id p sid with
      | none => simp [hg]
      | some sc => simp [hg, lookupA_insertA_self]
    · cases hg : get_script_by_id p sid with
      | none =>
        cases hg' : get_script_by_id p s' with
        | none => simp [hg']
        | some sc' => simp [hg', lookupA_insertA_ne acc s' sid sc' hss]
      | some sc =>
        have hmem : (sid ∈ s' :: sids) = (sid ∈ sids) := by
          simp [List.mem_cons, hss]
        cases hg' : get_script_by_id p s' with
        | none => simp [hg', hmem]
        | some sc' => simp [hg', hmem, lookupA_insertA_ne acc s' sid sc' hss]

/-- Lookup in the `scripts` dict agrees with the provider on every id
    referenced by the workflow, and is `none` whenever the provider
    cannot resolve the id. -/
theorem lookupA_build_scripts (p : Provider) (w : Workflow) (sid : String) :
    lookupA (build_scripts_dict p w) sid =
      if sid ∈ w.steps.map (fun st => st.script_id)
      then get_script_by_id p sid else none := by
  rw [build_scripts_dict, build_scripts_fold_lookup]
  cases hg : get_script_by_id p sid with
  | none => simp [lookupA]
  | some sc =>
    by_cases hm : sid ∈ w.steps.map (fun st => st.script_id) <;> simp [hm, lookupA]

/-- The synthesized step list of `_compute_plan`, phrased directly
    against the provider: one step per workflow step whose script
    resolves, in order, with the table-mapped args. -/
theorem compute_plan_steps (t : Task) (w : Workflow) (p : Provider) :
    (compute_plan t w p).plan =
      w.steps.filterMap
        (fun st => (get_script_by_id p st.script_id).map
          (fun s => PlanStep.mk st.script_id (map_task_inputs_to_script_args t s))) := by
  simp only [compute_plan]
  apply List.filterMap_congr
  intro st hst
  rw [lookupA_build_scripts]
  rw [if_pos (List.mem_map_of_mem (fun st => st.script_id) hst)]

/-- Length of a `filterMap` as the count of elements where the function
    succeeds. -/
theorem length_filterMap_eq_isSome {α β : Type} (f : α → Option β) :
    ∀ l : List α,
      (l.filterMap f).length = (l.filter (fun a => (f a).isSome)).length := by
  intro l
  induction l with
  | nil => rfl
  | cons a l ih =>
    cases hf : f a with
    | none => simp [List.filterMap_cons, hf, List.filter_cons, ih]
    | some b => simp [List.filterMap_cons, hf, List.filter_cons, ih]

/-- Claim C10: a workflow step whose `script_id` the provider cannot
    resolve is silently skipped — the `scripts` dict (hence the
    required-input set and the missing list) is the same as if the step
    were absent, the step produces no plan step, no failure is signaled
    (`_compute_plan` still returns a plan), and the plan has exactly one
    step per resolvable workflow step, so possibly fewer steps than the
    workflow. -/
theorem C10_unresolvable_step_skipped (t : Task) (w : Workflow) (p : Provider)
    (st : WorkflowStep) (l₁ l₂ : List WorkflowStep)
    (hsteps : w.steps = l₁ ++ st :: l₂)
    (hmiss : get_script_by_id p st.script_id = none) :
    build_scripts_dict p w = build_scripts_dict p { w with steps := l₁ ++ l₂ } ∧
    (compute_plan t w p).missing = (compute_plan t { w with steps := l₁ ++ l₂ } p).missing ∧
    (compute_plan t w p).plan = (compute_plan t { w with steps := l₁ ++ l₂ } p).plan ∧
    (compute_plan t w p).plan.length =
      (w.steps.filter (fun st' => (get_script_by_id p st'.script_id).isSome)).length ∧
    ∀ ps ∈ (compute_plan t w p).plan, ps.script_id ≠ st.script_id := by
  have hdict : build_scripts_dict p w = build_scripts_dict p { w with steps := l₁ ++ l₂ } := by
    rw [build_scripts_dict, build_scripts_dict]
    simp only [hsteps]
    rw [List.map_append, List.map_cons, List.foldl_append, List.foldl_cons]
    simp only [hmiss]
    rw [List.map_append, List.foldl_append]
  refine ⟨hdict, ?_, ?_, ?_, ?_⟩
  · simp only [compute_plan, hdict]
  · rw [compute_plan_steps, compute_plan_steps]
    simp only [hsteps]
    rw [List.filterMap_append, List.filterMap_cons, List.filterMap_append]
    simp [hmiss]
  · rw [compute_plan_steps, length_filterMap_eq_isSome]
    have : (fun st' : WorkflowStep => ((get_script_by_id p st'.script_id).map
        (fun s => PlanStep.mk st'.script_id (map_task_inputs_to_script_args t s))).isSome)
        = (fun st' : WorkflowStep => (get_script_by_id p st'.script_id).isSome) := by
      funext st'
      cases get_script_by_id p st'.script_id <;> rfl
    rw [this]
  · intro ps hps
    rw [compute_plan_steps] at hps
    obtain ⟨st', hst', hfs⟩ := List.mem_filterMap.mp hps
    cases hg : get_script_by_id p st'.script_id with
    | none => rw [hg] at hfs; exact Option.noConfusion hfs
    | some s =>
      rw [hg] at hfs
      have hid : ps.script_id = st'.script_id := by
        have := Option.some.inj hfs
        rw [← this]
      intro hcontra
      rw [hid] at hcontra
      rw [hcontra] at hg
      rw [hmiss] at hg
      exact Option.noConfusion hg

/-- Witness for C10_unresolvable_step_skipped: `wfA`'s second step
    references the unknown id `missing`, so the plan for `tA` has
    exactly one step and none of its steps carry that id. -/
theorem C10_witness :
    (compute_plan tA wfA provA).plan.length =
      (wfA.steps.filter (fun st' => (get_script_by_id provA st'.script_id).isSome)).length ∧
    ∀ ps ∈ (compute_plan tA wfA provA).plan, ps.script_id ≠ "missing" := by
  have h := C10_unresolvable_step_skipped tA wfA provA
    ⟨2, "missing", "opt", "absent"⟩ [⟨1, "s1", "simulate", "run demand"⟩] [] rfl rfl
  exact ⟨h.2.2.2.1, h.2.2.2.2⟩

/-! ### Claim C6: weather category of the missing-input heuristics. -/

/-- When the weather category is required, `weather_epw` lands in the
    missing list produced by the heuristic checks exactly when the task
    has no `.epw` input value and no `weather` input key. -/
theorem check_inputs_weather (t : Task) (rn : List String)
    (h : weather_required rn = true) :
    "weather_epw" ∈ (check_inputs t rn).2 ↔ weather_available t = false := by
  cases hw : weather_available t <;>
    by_cases hg : geometry_required rn = true <;>
    by_cases hga : geometry_available t = true <;>
    by_cases hs : "scenario_config" ∈ rn <;>
    simp [check_inputs, h, hw, hg, hga, hs]

/-- Claim C6: against a workflow whose resolved scripts declare a
    required weather input (the name `weather_file`, or any required
    input name containing `weather`), the plan's missing list contains
    `weather_epw` exactly when the task offers no weather; and the
    weather category counts as available exactly when some task input
    value ends in `.epw` or the key `weather` is present. -/
theorem C6_weather_missing (t : Task) (w : Workflow) (p : Provider)
    (hreq : weather_required
      ((required_inputs_of (build_scripts_dict p w)).map Prod.fst) = true) :
    ("weather_epw" ∈ (compute_plan t w p).missing ↔ weather_available t = false) ∧
    (weather_available t = true ↔
      ((∃ v ∈ t.inputs.map Prod.snd, strEndsWith v ".epw" = true)
        ∨ "weather" ∈ t.inputs.map Prod.fst)) := by
  constructor
  · have hmiss : (compute_plan t w p).missing =
        (check_inputs t ((required_inputs_of (build_scripts_dict p w)).map Prod.fst)).2 := by
      simp only [compute_plan]
    rw [hmiss]
    exact check_inputs_weather t _ hreq
  · simp [weather_available, List.any_eq_true]

/-- Witness for C6_weather_missing: `tA` (geometry input only, no
    weather) against `wfA`/`provA` (whose script requires
    `weather_file`) is missing `weather_epw`. -/
theorem C6_weather_missing_witness :
    weather_required
      ((required_inputs_of (build_scripts_dict provA wfA)).map Prod.fst) = true ∧
    "weather_epw" ∈ (compute_plan tA wfA provA).missing := by
  have h := C6_weather_missing tA wfA provA (by decide)
  exact ⟨by decide, h.1.mpr (by decide)⟩

/-! ### Claim C7: the argument mapping table. -/

/-- `some a == some b` computes the underlying comparison. -/
theorem some_beq_some (a b : String) : ((some a == some b) : Bool) = (a == b) := rfl

/-- A dict update either answers a lookup of its own key or defers. -/
theorem lookupA_insertA_cases (args : List (String × String)) (name v k : String) :
    lookupA (insertA args name v) k =
      if name == k then some v else lookupA args k := by
  by_cases hk : k = name
  · subst hk
    rw [lookupA_insertA_self, if_pos (by simp)]
  · rw [lookupA_insertA_ne args name k v hk,
      if_neg (by simpa using fun hh : name = k => hk hh.symm)]

/-- One step of the task-input fold of
    `_map_task_inputs_to_script_args`, seen through a lookup. -/
theorem inputs_step_lookup (args : List (String × String)) (kv : String × String)
    (k : String) :
    lookupA
      (if kv.1 == "geometry" || strEndsWith kv.2 ".geojson" then insertA args "buildings" kv.2
       else if kv.1 == "weather" || strEndsWith kv.2 ".epw" then insertA args "weather_file" kv.2
       else if kv.1 == "schedule" || strEndsWith kv.2 ".xlsx" then
         insertA args "occupancy_schedules" kv.2
       else if kv.1 == "data" || strEndsWith kv.2 ".csv" then insertA args "energy_demands" kv.2
       else args) k =
    (if input_arg_target kv == some k then some kv.2 else lookupA args k) := by
  cases h1 : (kv.1 == "geometry" || strEndsWith kv.2 ".geojson") with
  | true => simp [input_arg_target, h1, lookupA_insertA_cases]
  | false =>
    cases h2 : (kv.1 == "weather" || strEndsWith kv.2 ".epw") with
    | true => simp [input_arg_target, h1, h2, lookupA_insertA_cases]
    | false =>
      cases h3 : (kv.1 == "schedule" || strEndsWith kv.2 ".xlsx") with
      | true => simp [input_arg_target, h1, h2, h3, lookupA_insertA_cases]
      | false =>
        cases h4 : (kv.1 == "data" || strEndsWith kv.2 ".csv") with
        | true => simp [input_arg_target, h1, h2, h3, h4, lookupA_insertA_cases]
        | false => simp [input_arg_target, h1, h2, h3, h4]

/-- One step of the constraint fold of
    `_map_task_inputs_to_script_args`, seen through a lookup. -/
theorem constraints_step_lookup (args : List (String × String)) (kv : String × String)
    (k : String) :
    lookupA
      (if kv.1 == "algorithm" then insertA args "algorithm" kv.2
       else if kv.1 == "timestep" then insertA args "timestep" kv.2
       else args) k =
    (if constraint_arg_target kv == some k then some kv.2 else lookupA args k) := by
  cases h1 : (kv.1 == "algorithm") with
  | true => simp [constraint_arg_target, h1, lookupA_insertA_cases]
  | false =>
    cases h2 : (kv.1 == "timestep") with
    | true => simp [constraint_arg_target, h1, h2, lookupA_insertA_cases]
    | false => simp [constraint_arg_target, h1, h2]

/-- Folding dict writes whose per-step lookup behaviour is described by
    `target` produces the last matching write, falling back to the
    initial dict. -/
theorem foldl_lookup_last_match
    (g : List (String × String) → (String × String) → List (String × String))
    (target : (String × String) → Option String) (k : String)
    (hg : ∀ args kv, lookupA (g args kv) k =
      if target kv == some k then some kv.2 else lookupA args k) :
    ∀ (l : List (String × String)) (init : List (String × String)),
      lookupA (l.foldl g init) k =
        match last_match target k l with
        | some v => some v
        | none => lookupA init k := by
  intro l
  induction l with
  | nil => intro init; rfl
  | cons kv rest ih =>
    intro init
    rw [List.foldl_cons, ih, last_match]
    cases hlm : last_match target k rest with
    | some v => simp [hlm]
    | none =>
      simp only [hlm]
      rw [hg]
      cases hpb : (target kv == some k) <;> simp [hpb]

/-- A target that never writes `k` contributes no last match. -/
theorem last_match_eq_none (target : (String × String) → Option String) (k : String)
    (h : ∀ kv, (target kv == some k) = false) :
    ∀ l, last_match target k l = none := by
  intro l
  induction l with
  | nil => rfl
  | cons kv rest ih =>
    rw [last_match, ih]
    simp [h kv]

/-- The constraint table never writes `scenario_config`. -/
theorem ctarget_ne_scenario :
    ∀ kv, (constraint_arg_target kv == some "scenario_config") = false := by
  intro kv
  simp only [constraint_arg_target]
  by_cases h1 : (kv.1 == "algorithm") = true
  · rw [if_pos h1]; decide
  · rw [if_neg h1]
    by_cases h2 : (kv.1 == "timestep") = true
    · rw [if_pos h2]; decide
    · rw [if_neg h2]; decide

/-- The input table never writes `scenario_config`. -/
theorem itarget_ne_scenario :
    ∀ kv, (input_arg_target kv == some "scenario_config") = false := by
  intro kv
  simp only [input_arg_target]
  by_cases h1 : (kv.1 == "geometry" || strEndsWith kv.2 ".geojson") = true
  · rw [if_pos h1]; decide
  · rw [if_neg h1]
    by_cases h2 : (kv.1 == "weather" || strEndsWith kv.2 ".epw") = true
    · rw [if_pos h2]; decide
    · rw [if_neg h2]
      by_cases h3 : (kv.1 == "schedule" || strEndsWith kv.2 ".xlsx") = true
      · rw [if_pos h3]; decide
      · rw [if_neg h3]
        by_cases h4 : (kv.1 == "data" || strEndsWith kv.2 ".csv") = true
        · rw [if_pos h4]; decide
        · rw [if_neg h4]; decide

/-- Claim C7: the synthesized args mapping is exactly the fixed lookup
    table — looking up any argument name `k` returns: for
    `scenario_config`, the literal `scenario.yml` iff the script
    declares an input of that name; for the four file-argument names,
    the last task input the table sends to `k`; for
    `algorithm`/`timestep`, the last matching constraint; and `none` for
    every other name, so no other args are produced. -/
theorem C7_args_table (t : Task) (s : Script) (k : String) :
    lookupA (map_task_inputs_to_script_args t s) k =
      if k = "scenario_config" then
        (if s.inputs.any (fun inp => inp.name == "scenario_config")
         then some "scenario.yml" else none)
      else
        match last_match constraint_arg_target k t.constraints with
        | some v => some v
        | none => last_match input_arg_target k t.inputs := by
  simp only [map_task_inputs_to_script_args]
  have hA : lookupA (t.inputs.foldl
      (fun args kv =>
        if kv.1 == "geometry" || strEndsWith kv.2 ".geojson" then insertA args "buildings" kv.2
        else if kv.1 == "weather" || strEndsWith kv.2 ".epw" then insertA args "weather_file" kv.2
        else if kv.1 == "schedule" || strEndsWith kv.2 ".xlsx" then
          insertA args "occupancy_schedules" kv.2
        else if kv.1 == "data" || strEndsWith kv.2 ".csv" then insertA args "energy_demands" kv.2
        else args) []) k = last_match input_arg_target k t.inputs := by
    rw [foldl_lookup_last_match _ input_arg_target k
      (fun args kv => inputs_step_lookup args kv k)]
    cases hlm : last_match input_arg_target k t.inputs <;> simp [hlm, lookupA]
  have hB : ∀ init : List (String × String),
      lookupA (t.constraints.foldl
        (fun args kv =>
          if kv.1 == "algorithm" then insertA args "algorithm" kv.2
          else if kv.1 == "timestep" then insertA args "timestep" kv.2
          else args) init) k =
        match last_match constraint_arg_target k t.constraints with
        | some v => some v
        | none => lookupA init k :=
    fun init => foldl_lookup_last_match _ constraint_arg_target k
      (fun args kv => constraints_step_lookup args kv k) t.constraints init
  by_cases hsc : (s.inputs.any (fun inp => inp.name == "scenario_config")) = true
  · rw [if_pos hsc]
    by_cases hk : k = "scenario_config"
    · subst hk
      rw [lookupA_insertA_self, if_pos rfl, if_pos hsc]
    · rw [lookupA_insertA_ne _ "scenario_config" k _ hk, if_neg hk, hB, hA]
  · rw [if_neg hsc]
    by_cases hk : k = "scenario_config"
    · subst hk
      rw [if_pos rfl, if_neg hsc, hB, hA,
        last_match_eq_none constraint_arg_target _ ctarget_ne_scenario,
        last_match_eq_none input_arg_target _ itarget_ne_scenario]
    · rw [if_neg hk, hB, hA]

end Maf
